import Mathlib

/-!
Verification development for the `db_internals` SQL front-end
(`lexer/lexer.go` and `parser/parser.go`): a character-level tokenizer
and a recursive-descent parser producing statement syntax trees.

The Go code is shallowly embedded: the tokenizer's scan loop and the
parser's cursor (a mutable index over the token buffer) become
recursion over the remaining character / token list.  Loops whose
recursion is not structural carry an explicit iteration bound (`fuel`);
every loop iteration of the Go code consumes at least one input
element, so entry points pass `length + 1`, which is always enough.
-/

namespace DbInternals

/-- Token types, from `lexer.TokenType` (`lexer/lexer.go`). -/
inductive TokenType where
  | keyword
  | identifier
  | operator
  | number
  | string
  | whitespace
  | separator
  | unknown
deriving DecidableEq, Repr

/-- A lexical token, from `lexer.Token`: a type and its literal text. -/
structure Token where
  kind : TokenType
  value : String
deriving DecidableEq, Repr

/-- The fixed keyword set, from the `keywords` map in `lexer/lexer.go`. -/
def keywords : List String :=
  ["select", "from", "where", "create", "table", "insert", "into",
   "values", "limit", "and", "or", "null", "update", "delete", "drop"]

/-- `strings.ToLower`, character-wise (the sources only compare ASCII
keyword/operator text). -/
def lowerString (s : String) : String :=
  String.mk (s.data.map Char.toLower)

/-- `strings.ToUpper`, character-wise. -/
def upperString (s : String) : String :=
  String.mk (s.data.map Char.toUpper)

/-- `isWhitespace` from `lexer/lexer.go`. -/
def isWhitespace (ch : Char) : Bool :=
  ch = ' ' || ch = '\t' || ch = '\n' || ch = '\r'

/-- The separator set check, `isSeparator` from `lexer/lexer.go`. -/
def isSeparator (ch : Char) : Bool :=
  ch = ',' || ch = ';' || ch = '(' || ch = ')' || ch = '*'

/-- The operator set check, `isOperator` from `lexer/lexer.go`. -/
def isOperator (s : String) : Bool :=
  s = "=" || s = "!=" || s = "<" || s = ">" || s = "<=" || s = ">="

/-- `isNumeric` from `lexer/lexer.go`: nonempty, and every character is
a digit or a dot (no well-formedness check beyond that). -/
def isNumeric (value : String) : Bool :=
  value ≠ "" && value.data.all (fun ch => ('0' ≤ ch && ch ≤ '9') || ch = '.')

/-- `createToken` from `lexer/lexer.go`: classify a flushed buffer as
keyword (case-insensitive match), number, or identifier. -/
def createToken (value : String) : Token :=
  let lower := lowerString value
  if keywords.contains lower then ⟨TokenType.keyword, value⟩
  else if isNumeric value then ⟨TokenType.number, value⟩
  else ⟨TokenType.identifier, value⟩

/-- Emit the pending buffer, if nonempty — the repeated
`if current.Len() > 0 { tokens = append(tokens, createToken(...)) }`
pattern of `Tokenize`. -/
def flushCurrent (current : List Char) : List Token :=
  if current = [] then [] else [createToken (String.mk current)]

/-- The inner quoted-string scan of `Tokenize`
(`for i < len(input) && rune(input[i]) != quote`): returns the captured
content and the remaining input starting at the closing quote (or `[]`
when the input ran out first). -/
def scanString (quote : Char) : List Char → List Char × List Char
  | [] => ([], [])
  | ch :: rest =>
    if ch = quote then ([], ch :: rest)
    else ((scanString quote rest).1.cons ch, (scanString quote rest).2)

/-- The main scan loop of `lexer.Tokenize`, embedded over the remaining
input characters and the pending buffer `current`.  The `fuel` argument
bounds the number of loop iterations; each Go iteration advances the
index by at least one, so `Tokenize` passes `length + 1` and the
`fuel = 0` fallback (which just flushes, like reaching end of input) is
never taken.

The operator branch reproduces the source exactly, including its
handling of a pending buffer: the flush is followed by `i++`, after
which the two-character lookahead happens at the advanced position
while the single-character fallback still emits the original `ch`. -/
def tokenizeLoop : Nat → List Char → List Char → List Token
  | _, [], current => flushCurrent current
  | 0, _ :: _, current => flushCurrent current
  | fuel + 1, ch :: rest, current =>
    if isWhitespace ch then
      flushCurrent current ++ tokenizeLoop fuel rest []
    else if isSeparator ch then
      flushCurrent current ++
        (⟨TokenType.separator, String.mk [ch]⟩ :: tokenizeLoop fuel rest [])
    else if isOperator (String.mk [ch]) ||
        (match rest with
         | c2 :: _ => isOperator (String.mk [ch, c2])
         | [] => false) then
      if current = [] then
        match rest with
        | c2 :: rest2 =>
          if isOperator (String.mk [ch, c2]) then
            ⟨TokenType.operator, String.mk [ch, c2]⟩ :: tokenizeLoop fuel rest2 []
          else
            ⟨TokenType.operator, String.mk [ch]⟩ :: tokenizeLoop fuel (c2 :: rest2) []
        | [] =>
          ⟨TokenType.operator, String.mk [ch]⟩ :: tokenizeLoop fuel [] []
      else
        createToken (String.mk current) ::
          (match rest with
           | c2 :: c3 :: rest2 =>
             if isOperator (String.mk [c2, c3]) then
               ⟨TokenType.operator, String.mk [c2, c3]⟩ :: tokenizeLoop fuel rest2 []
             else
               ⟨TokenType.operator, String.mk [ch]⟩ :: tokenizeLoop fuel (c3 :: rest2) []
           | [_] =>
             ⟨TokenType.operator, String.mk [ch]⟩ :: tokenizeLoop fuel [] []
           | [] =>
             ⟨TokenType.operator, String.mk [ch]⟩ :: tokenizeLoop fuel [] [])
    else if ch = '\'' || ch = '"' then
      flushCurrent current ++
        (⟨TokenType.string, String.mk (scanString ch rest).1⟩ ::
          (match (scanString ch rest).2 with
           | [] => tokenizeLoop fuel [] []
           | _ :: rest3 => tokenizeLoop fuel rest3 []))
    else
      tokenizeLoop fuel rest (current ++ [ch])

/-- `lexer.Tokenize`: split an input string into tokens. -/
def Tokenize (input : String) : List Token :=
  tokenizeLoop (input.data.length + 1) input.data []

/-! ## Syntax-tree model (`parser/parser.go`) -/

/-- Expression nodes, from the `Expr` variants in `parser/parser.go`
(`ColumnRef`, `LiteralInt`, `LiteralString`, `ComparisonOp`,
`LogicalOp`, `BinaryOp`).  `LiteralInt` holds a Go `uint64`; values are
produced through `parseUint`, which enforces the 64-bit range. -/
inductive Expr where
  | columnRef (name : String)
  | literalInt (value : Nat)
  | literalString (value : String)
  | comparisonOp (left : Expr) (op : String) (right : Expr)
  | logicalOp (left : Expr) (op : String) (right : Expr)
  | binaryOp (left : Expr) (op : String) (right : Expr)
deriving DecidableEq, Repr

/-- `parser.ProjectionItem`. -/
structure ProjectionItem where
  all : Bool
  column : String
deriving DecidableEq, Repr

/-- `parser.TableRef`. -/
structure TableRef where
  name : String
deriving DecidableEq, Repr

/-- `parser.ColumnDef`. -/
structure ColumnDef where
  name : String
  type : String
deriving DecidableEq, Repr

/-- Statement nodes, from `SelectStmt`, `InsertStmt` and
`CreateTableStmt` in `parser/parser.go`.  Go's nilable `Selection Expr`
and `Limit *uint64` become `Option`s. -/
inductive AstNode where
  | selectStmt (projections : List ProjectionItem) (fromTable : TableRef)
      (selection : Option Expr) (limit : Option Nat)
  | insertStmt (tableName : String) (values : List Expr)
  | createTableStmt (tableName : String) (columns : List ColumnDef)
deriving DecidableEq, Repr

/-! ## Parser -/

/-- `strconv.ParseUint(v, 10, 64)` as used by the parser: accepts a
nonempty all-digit string whose value fits in 64 bits, errors
otherwise (in particular on any `.`). -/
def parseUint (s : String) : Except String Nat :=
  if s.data ≠ [] && s.data.all (fun ch => '0' ≤ ch && ch ≤ '9') then
    let n := s.data.foldl (fun acc ch => acc * 10 + (ch.toNat - '0'.toNat)) 0
    if n < 2 ^ 64 then Except.ok n
    else Except.error ("parsing " ++ s ++ ": value out of range")
  else Except.error ("parsing " ++ s ++ ": invalid syntax")

/-- The numeric-truncation snippet shared by `parseComparison` and
`parseInsert`: `if strings.Contains(v, ".") { v = strings.SplitN(v, ".", 2)[0] }`
— keep only the prefix before the first dot. -/
def truncateNumber (v : String) : String :=
  if v.data.contains '.' then String.mk (v.data.takeWhile (fun c => c ≠ '.'))
  else v

/-- Test for a Separator token with a given text. -/
def isSepTok (t : Token) (v : String) : Bool :=
  t.kind = TokenType.separator && t.value = v

/-- Test for a Keyword token matching `name` case-insensitively
(`strings.EqualFold`). -/
def isKw (t : Token) (name : String) : Bool :=
  t.kind = TokenType.keyword && lowerString t.value = lowerString name

/-- The `AND`/`OR` test of `parseLogical`'s loop condition. -/
def isAndOr (t : Token) : Bool :=
  t.kind = TokenType.keyword &&
    (lowerString t.value = "and" || lowerString t.value = "or")

/-- `parser.expectKeyword`: consume one keyword token matching `name`
case-insensitively, or fail. -/
def expectKeyword (name : String) : List Token → Except String (List Token)
  | [] => Except.error ("expected keyword " ++ name ++ ", got eof")
  | t :: rest =>
    if isKw t name then Except.ok rest
    else Except.error ("expected keyword " ++ name ++ ", got " ++ t.value)

/-- `parser.parseComparison`: `identifier comparator (number | string |
identifier)`; a right-hand Number token is truncated at the first dot
before `strconv.ParseUint`. -/
def parseComparison : List Token → Except String (Expr × List Token)
  | [] => Except.error "unexpected eof in expression"
  | t :: rest =>
    if t.kind = TokenType.identifier then
      let left := Expr.columnRef t.value
      match rest with
      | [] => Except.error "expected comparison operator, got eof"
      | opTok :: rest2 =>
        if opTok.kind = TokenType.operator then
          match rest2 with
          | [] => Except.error "unexpected eof after operator"
          | rt :: rest3 =>
            match rt.kind with
            | TokenType.number =>
              match parseUint (truncateNumber rt.value) with
              | Except.ok u =>
                Except.ok (Expr.comparisonOp left opTok.value (Expr.literalInt u), rest3)
              | Except.error e => Except.error e
            | TokenType.string =>
              Except.ok (Expr.comparisonOp left opTok.value (Expr.literalString rt.value), rest3)
            | TokenType.identifier =>
              Except.ok (Expr.comparisonOp left opTok.value (Expr.columnRef rt.value), rest3)
            | _ => Except.error "unexpected token on right side of comparison"
        else Except.error "expected comparison operator"
    else Except.error "expected identifier on left side of comparison"

/-- The `(AND|OR) comparison` loop of `parser.parseLogical`, folding
strictly left-to-right into nested `LogicalOp` nodes.  `fuel` bounds
the iteration count; each iteration consumes at least the AND/OR token,
so `parseLogical` passes `length + 1` and the fallback (returning the
accumulated expression, as when no AND/OR follows) is never taken. -/
def logicalLoop : Nat → Expr → List Token → Except String (Expr × List Token)
  | _, left, [] => Except.ok (left, [])
  | 0, left, t :: rest => Except.ok (left, t :: rest)
  | fuel + 1, left, t :: rest =>
    if isAndOr t then
      match parseComparison rest with
      | Except.ok (right, r) =>
        logicalLoop fuel (Expr.logicalOp left (upperString t.value) right) r
      | Except.error e => Except.error e
    else Except.ok (left, t :: rest)

/-- `parser.parseLogical`: `comparison ( (AND|OR) comparison )*`. -/
def parseLogical (ts : List Token) : Except String (Expr × List Token) :=
  match parseComparison ts with
  | Except.ok (left, r) => logicalLoop (r.length + 1) left r
  | Except.error e => Except.error e

/-- The projection-list loop of `parser.parseSelect`: one-or-more
comma-separated identifiers, accumulated in order. -/
def parseProjList (proj : List ProjectionItem) :
    List Token → Except String (List ProjectionItem × List Token)
  | [] => Except.error "expected projection identifier, got eof"
  | t :: rest =>
    if t.kind = TokenType.identifier then
      let proj2 := proj ++ [ProjectionItem.mk false t.value]
      match rest with
      | s :: rest2 =>
        if isSepTok s "," then parseProjList proj2 rest2
        else Except.ok (proj2, s :: rest2)
      | [] => Except.ok (proj2, [])
    else Except.error "expected projection identifier"

/-- The optional `WHERE logical` clause of `parser.parseSelect`. -/
def parseWhereOpt : List Token → Except String (Option Expr × List Token)
  | [] => Except.ok (none, [])
  | t :: rest =>
    if isKw t "WHERE" then
      match parseLogical rest with
      | Except.ok (e, r) => Except.ok (some e, r)
      | Except.error err => Except.error err
    else Except.ok (none, t :: rest)

/-- The optional `LIMIT number` clause of `parser.parseSelect`: the
token after `LIMIT` must be a Number and is passed to
`strconv.ParseUint` untruncated. -/
def parseLimitOpt : List Token → Except String (Option Nat × List Token)
  | [] => Except.ok (none, [])
  | t :: rest =>
    if isKw t "LIMIT" then
      match rest with
      | n :: rest2 =>
        if n.kind = TokenType.number then
          match parseUint n.value with
          | Except.ok u => Except.ok (some u, rest2)
          | Except.error e => Except.error e
        else Except.error "expected number after LIMIT"
      | [] => Except.error "expected number after LIMIT"
    else Except.ok (none, t :: rest)

/-- `parser.parseSelect`, applied to the token list still including the
leading `SELECT` token (which it consumes, like the Go `p.next()`). -/
def parseSelect (ts : List Token) : Except String (AstNode × List Token) :=
  match ts.tail with
  | [] => Except.error "unexpected eof after SELECT"
  | t :: rest =>
    let projRes : Except String (List ProjectionItem × List Token) :=
      if isSepTok t "*" then Except.ok ([ProjectionItem.mk true ""], rest)
      else parseProjList [] (t :: rest)
    match projRes with
    | Except.error e => Except.error e
    | Except.ok (proj, r1) =>
      match expectKeyword "FROM" r1 with
      | Except.error e => Except.error e
      | Except.ok r2 =>
        match r2 with
        | tbl :: r3 =>
          if tbl.kind = TokenType.identifier then
            match parseWhereOpt r3 with
            | Except.error e => Except.error e
            | Except.ok (selection, r4) =>
              match parseLimitOpt r4 with
              | Except.error e => Except.error e
              | Except.ok (limit, r5) =>
                Except.ok
                  (AstNode.selectStmt proj (TableRef.mk tbl.value) selection limit, r5)
          else Except.error "expected table identifier after FROM"
        | [] => Except.error "expected table identifier after FROM"

/-- The optional column-name-list skip loop of `parser.parseInsert`
(entered after its `(` was consumed): consume any token, then an
optional comma, until the first `)` Separator; the tokens are
discarded. -/
def skipColumnList : List Token → Except String (List Token)
  | [] => Except.error "unexpected eof in column list"
  | t :: rest =>
    if isSepTok t ")" then Except.ok rest
    else
      match rest with
      | s :: rest2 =>
        if isSepTok s "," then skipColumnList rest2
        else skipColumnList (s :: rest2)
      | [] => Except.error "unexpected eof in column list"

/-- One VALUES-list entry of `parser.parseInsert`: Number (truncated at
the first dot, then `ParseUint`), String, or Identifier. -/
def parseValueToken (t : Token) : Except String Expr :=
  match t.kind with
  | TokenType.number =>
    match parseUint (truncateNumber t.value) with
    | Except.ok u => Except.ok (Expr.literalInt u)
    | Except.error e => Except.error e
  | TokenType.string => Except.ok (Expr.literalString t.value)
  | TokenType.identifier => Except.ok (Expr.columnRef t.value)
  | _ => Except.error "unexpected token in VALUES"

/-- The VALUES loop of `parser.parseInsert`: at least one value;
breaking (at a `)` or after a value with no comma) leaves the remaining
tokens, whose head the caller then requires to be `)`. -/
def parseValuesLoop (vals : List Expr) (hasValues : Bool) :
    List Token → Except String (List Expr × List Token)
  | [] => Except.error "unexpected eof in values"
  | t :: rest =>
    if isSepTok t ")" then
      if hasValues then Except.ok (vals, t :: rest)
      else Except.error "expected at least one value in VALUES list"
    else
      match parseValueToken t with
      | Except.error e => Except.error e
      | Except.ok v =>
        match rest with
        | s :: rest2 =>
          if isSepTok s "," then parseValuesLoop (vals ++ [v]) true rest2
          else Except.ok (vals ++ [v], s :: rest2)
        | [] => Except.ok (vals ++ [v], [])

/-- `parser.parseInsert`, applied to the token list still including the
leading `INSERT` token. -/
def parseInsert (ts : List Token) : Except String (AstNode × List Token) :=
  match expectKeyword "INTO" ts.tail with
  | Except.error e => Except.error e
  | Except.ok r1 =>
    match r1 with
    | tbl :: r2 =>
      if tbl.kind = TokenType.identifier then
        let colRes : Except String (List Token) :=
          match r2 with
          | t :: rest =>
            if isSepTok t "(" then skipColumnList rest else Except.ok (t :: rest)
          | [] => Except.ok []
        match colRes with
        | Except.error e => Except.error e
        | Except.ok r3 =>
          match expectKeyword "VALUES" r3 with
          | Except.error e => Except.error e
          | Except.ok r4 =>
            match r4 with
            | lp :: r5 =>
              if isSepTok lp "(" then
                match parseValuesLoop [] false r5 with
                | Except.error e => Except.error e
                | Except.ok (vals, r6) =>
                  match r6 with
                  | rp :: r7 =>
                    if isSepTok rp ")" then
                      Except.ok (AstNode.insertStmt tbl.value vals, r7)
                    else Except.error "expected closing paren after values list"
                  | [] => Except.error "expected closing paren after values list"
              else Except.error "expected open paren to start VALUES list"
            | [] => Except.error "expected open paren to start VALUES list"
      else Except.error "expected table name after INTO"
    | [] => Except.error "expected table name after INTO"

/-- The column-definition loop of `parser.parseCreateTable`: name and
type identifiers, then an optional comma; the Go loop has no break
after a definition, so it simply re-enters whether or not a comma was
seen.  Consumes the closing `)`. -/
def parseColsLoop (cols : List ColumnDef) (hasColumns : Bool) :
    List Token → Except String (List ColumnDef × List Token)
  | [] => Except.error "unexpected eof in column definitions"
  | t :: rest =>
    if isSepTok t ")" then
      if hasColumns then Except.ok (cols, rest)
      else Except.error "expected at least one column definition"
    else if t.kind = TokenType.identifier then
      match rest with
      | ty :: rest2 =>
        if ty.kind = TokenType.identifier then
          let cols2 := cols ++ [ColumnDef.mk t.value ty.value]
          match rest2 with
          | c :: rest3 =>
            if isSepTok c "," then parseColsLoop cols2 true rest3
            else parseColsLoop cols2 true (c :: rest3)
          | [] => Except.error "unexpected eof in column definitions"
        else Except.error ("expected column type for " ++ t.value)
      | [] => Except.error ("expected column type for " ++ t.value)
    else Except.error "expected column name"

/-- `parser.parseCreateTable`, applied to the token list still
including the leading `CREATE` token. -/
def parseCreateTable (ts : List Token) : Except String (AstNode × List Token) :=
  match expectKeyword "TABLE" ts.tail with
  | Except.error e => Except.error e
  | Except.ok r1 =>
    match r1 with
    | tbl :: r2 =>
      if tbl.kind = TokenType.identifier then
        match r2 with
        | lp :: r3 =>
          if isSepTok lp "(" then
            match parseColsLoop [] false r3 with
            | Except.error e => Except.error e
            | Except.ok (cols, r4) =>
              Except.ok (AstNode.createTableStmt tbl.value cols, r4)
          else Except.error "expected open paren after table name"
        | [] => Except.error "expected open paren after table name"
      else Except.error "expected table name after CREATE TABLE"
    | [] => Except.error "expected table name after CREATE TABLE"

/-- `parser.parseStatement`: dispatch on the uppercased leading keyword. -/
def parseStatement : List Token → Except String (AstNode × List Token)
  | [] => Except.error "unexpected eof"
  | t :: rest =>
    if t.kind = TokenType.keyword then
      if upperString t.value = "SELECT" then parseSelect (t :: rest)
      else if upperString t.value = "INSERT" then parseInsert (t :: rest)
      else if upperString t.value = "CREATE" then parseCreateTable (t :: rest)
      else Except.error ("unsupported statement starting with " ++ t.value)
    else Except.error ("unsupported statement starting with " ++ t.value)

/-- The statement loop of `parser.parseStatements`: skip stray `;`
tokens, parse a statement, consume one optional trailing `;`; on the
first error the whole call fails, discarding `out`.  `fuel` bounds the
iterations; each consumes at least one token, so `parseStatements`
passes `length + 1` and the fallback (returning the statements so far,
as at end of input) is never taken. -/
def parseStatementsLoop : Nat → List AstNode → List Token → Except String (List AstNode)
  | _, out, [] => Except.ok out
  | 0, out, _ :: _ => Except.ok out
  | fuel + 1, out, t :: rest =>
    if isSepTok t ";" then parseStatementsLoop fuel out rest
    else
      match parseStatement (t :: rest) with
      | Except.error e => Except.error e
      | Except.ok (node, r) =>
        match r with
        | [] => parseStatementsLoop fuel (out ++ [node]) []
        | s :: r2 =>
          if isSepTok s ";" then parseStatementsLoop fuel (out ++ [node]) r2
          else parseStatementsLoop fuel (out ++ [node]) (s :: r2)

/-- `parser.parseStatements`. -/
def parseStatements (ts : List Token) : Except String (List AstNode) :=
  parseStatementsLoop (ts.length + 1) [] ts

/-- `parser.ParseString`: tokenize, then parse. -/
def ParseString (input : String) : Except String (List AstNode) :=
  parseStatements (Tokenize input)

/-- Whether a parse outcome is an error. -/
def isErr {α : Type} : Except String α → Bool
  | Except.error _ => true
  | Except.ok _ => false

/-! ## Test-input builders for general statements about comparison chains -/

/-- The token rendering of one comparison `l op r` whose right operand
is an identifier. -/
def cmpToks (l op r : String) : List Token :=
  [⟨TokenType.identifier, l⟩, ⟨TokenType.operator, op⟩, ⟨TokenType.identifier, r⟩]

/-- The syntax tree the parser builds for one such comparison. -/
def cmpExpr (l op r : String) : Expr :=
  Expr.comparisonOp (Expr.columnRef l) op (Expr.columnRef r)

/-- The token rendering of a `(AND|OR) comparison` chain: each entry is
a logical-connective keyword followed by one comparison. -/
def chainToks : List (String × String × String × String) → List Token
  | [] => []
  | (lop, l, op, r) :: rest =>
    (⟨TokenType.keyword, lop⟩ :: cmpToks l op r) ++ chainToks rest

/-- The strictly left-to-right fold of a chain into nested `LogicalOp`
nodes (the connective stored uppercased, as the parser does). -/
def foldChain (acc : Expr) : List (String × String × String × String) → Expr
  | [] => acc
  | (lop, l, op, r) :: rest =>
    foldChain (Expr.logicalOp acc (upperString lop) (cmpExpr l op r)) rest

end DbInternals

/-! ## Claim theorems -/

namespace DbInternals

/-- **C1** (code_bug evidence). The tokenizer does not place every
non-whitespace, non-quote character into a token: on `"a<1"` the
operator branch flushes the pending buffer `"a"` with an extra index
increment, so the emitted tokens are only `Identifier "a"` and
`Operator "<"` — the character `'1'` appears in no emitted token. -/
theorem c1_operator_flush_drops_char :
    Tokenize "a<1" =
      [⟨TokenType.identifier, "a"⟩, ⟨TokenType.operator, "<"⟩] ∧
    (Tokenize "a<1").all (fun t => !(t.value.data.contains '1')) = true :=
  ⟨rfl, rfl⟩

/-- **C2** (code_bug evidence). With a pending buffered token, a
two-character operator is not emitted as one token: `"a!=1"` yields
`Identifier "a"`, `Operator "!"` (the stale first character; the `'='`
is dropped), `Number "1"` — not `Operator "!="`.  Without a pending
buffer the greedy two-character match does work, as `"a != 1"` shows. -/
theorem c2_two_char_operator_after_buffer_broken :
    Tokenize "a!=1" =
      [⟨TokenType.identifier, "a"⟩, ⟨TokenType.operator, "!"⟩,
       ⟨TokenType.number, "1"⟩] ∧
    Tokenize "a != 1" =
      [⟨TokenType.identifier, "a"⟩, ⟨TokenType.operator, "!="⟩,
       ⟨TokenType.number, "1"⟩] := by
  exact ⟨rfl, rfl⟩

/-- **C3** (counterexample). A fractional Number token in the LIMIT
clause is not truncated: `LIMIT 10.5` is passed untruncated to
`strconv.ParseUint`, which fails, so the statement is a parse error —
not `limit = 10` as claimed. -/
theorem c3_limit_fractional_is_error :
    isErr (ParseString "SELECT * FROM t LIMIT 10.5") = true := by
  rfl

/-- **C3** (amended). Numeric truncation at the first `.` applies in
WHERE comparison right operands and in VALUES entries (`10.5` becomes
`LiteralInt 10`), but not in the LIMIT clause, where a Number token
containing `.` makes `strconv.ParseUint` fail and the statement is a
parse error. -/
theorem c3_truncation_where_values_not_limit :
    ParseString "SELECT * FROM t WHERE a = 10.5" =
      Except.ok
        [AstNode.selectStmt [⟨true, ""⟩] ⟨"t"⟩
          (some (Expr.comparisonOp (Expr.columnRef "a") "=" (Expr.literalInt 10)))
          none] ∧
    ParseString "INSERT INTO t VALUES (10.5)" =
      Except.ok [AstNode.insertStmt "t" [Expr.literalInt 10]] ∧
    isErr (ParseString "SELECT * FROM t LIMIT 10.5") = true := by
  exact ⟨rfl, rfl, rfl⟩

/-- **C4** (counterexample). Two column definitions not separated by a
comma do not produce an error: the column-definition loop has no break
when the token after a definition is not a comma, so
`CREATE TABLE t (a INT b TEXT)` parses successfully into two columns. -/
theorem c4_missing_comma_accepted :
    ParseString "CREATE TABLE t (a INT b TEXT)" =
      Except.ok [AstNode.createTableStmt "t" [⟨"a", "INT"⟩, ⟨"b", "TEXT"⟩]] := by
  rfl

/-- **C4** (amended). CREATE TABLE accepts one-or-more `ident ident`
column definitions with the comma between definitions optional and a
trailing comma before `)` allowed; at least one definition is required,
a missing type token is a syntax error, and end of input inside the
definition list (including right after a comma) is a syntax error. -/
theorem c4_create_table_accepted_shapes :
    ParseString "CREATE TABLE t (a INT, b TEXT)" =
      Except.ok [AstNode.createTableStmt "t" [⟨"a", "INT"⟩, ⟨"b", "TEXT"⟩]] ∧
    ParseString "CREATE TABLE t (a INT b TEXT)" =
      Except.ok [AstNode.createTableStmt "t" [⟨"a", "INT"⟩, ⟨"b", "TEXT"⟩]] ∧
    ParseString "CREATE TABLE t (a INT,)" =
      Except.ok [AstNode.createTableStmt "t" [⟨"a", "INT"⟩]] ∧
    isErr (ParseString "CREATE TABLE t ()") = true ∧
    isErr (ParseString "CREATE TABLE t (a INT, b)") = true ∧
    isErr (ParseString "CREATE TABLE t (a INT,") = true := by
  exact ⟨rfl, rfl, rfl, rfl, rfl, rfl⟩

/-- **C5**. A grammar violation anywhere makes the whole call fail with
an error and no statement nodes (an `Except.error` carries no nodes):
the three claimed inputs all fail, and a failure in the second
statement discards the first even though that prefix parses on its
own. -/
theorem c5_fail_returns_error_and_no_nodes :
    isErr (ParseString "SELECT FROM t") = true ∧
    isErr (ParseString "CREATE TABLE t()") = true ∧
    isErr (ParseString "INSERT INTO t VALUES") = true ∧
    isErr (ParseString "SELECT * FROM t; SELECT FROM t") = true ∧
    ParseString "SELECT * FROM t" =
      Except.ok [AstNode.selectStmt [⟨true, ""⟩] ⟨"t"⟩ none none] := by
  exact ⟨rfl, rfl, rfl, rfl, rfl⟩

/-- **C7**. `parse("SELECT * FROM users WHERE id = 123")` returns
exactly one SelectStmt: wildcard projection, table `users`, predicate
`ComparisonOp(ColumnRef "id", "=", LiteralInt 123)`, no limit. -/
theorem c7_select_where_ast :
    ParseString "SELECT * FROM users WHERE id = 123" =
      Except.ok
        [AstNode.selectStmt [⟨true, ""⟩] ⟨"users"⟩
          (some (Expr.comparisonOp (Expr.columnRef "id") "=" (Expr.literalInt 123)))
          none] := by
  rfl

/-- Helper: `parseComparison` on one rendered comparison consumes
exactly its three tokens. -/
theorem parseComparison_cmpToks (l op r : String) (ts : List Token) :
    parseComparison (cmpToks l op r ++ ts) = Except.ok (cmpExpr l op r, ts) := rfl

/-- Helper: the AND/OR loop consumes a whole rendered chain and folds
it strictly left-to-right, given enough fuel. -/
theorem logicalLoop_chainToks :
    ∀ (chain : List (String × String × String × String)) (fuel : Nat) (acc : Expr),
      (chainToks chain).length < fuel →
      (∀ e ∈ chain, lowerString e.1 = "and" ∨ lowerString e.1 = "or") →
      logicalLoop fuel acc (chainToks chain) = Except.ok (foldChain acc chain, []) := by
  intro chain
  induction chain with
  | nil =>
    intro fuel acc _ _
    cases fuel <;> rfl
  | cons hd rest ih =>
    intro fuel acc hlen hops
    obtain ⟨lop, l, op, r⟩ := hd
    cases fuel with
    | zero => exact absurd hlen (Nat.not_lt_zero _)
    | succ f =>
      have hAndOr : isAndOr ⟨TokenType.keyword, lop⟩ = true := by
        have h1 := hops (lop, l, op, r) (List.mem_cons_self _ _)
        simp only [isAndOr]
        rcases h1 with h | h <;> simp [h]
      have hfold : foldChain acc ((lop, l, op, r) :: rest) =
          foldChain (Expr.logicalOp acc (upperString lop) (cmpExpr l op r)) rest := rfl
      have hlist : chainToks ((lop, l, op, r) :: rest) =
          ⟨TokenType.keyword, lop⟩ :: (cmpToks l op r ++ chainToks rest) := rfl
      rw [hlist, hfold]
      simp only [logicalLoop, hAndOr, if_true, parseComparison_cmpToks]
      apply ih
      · have h3 : (cmpToks l op r).length = 3 := rfl
        rw [hlist] at hlen
        simp only [List.length_cons, List.length_append, h3] at hlen
        omega
      · exact fun e he => hops e (List.mem_cons_of_mem _ he)

/-- Helper: `parseLogical` on a rendered comparison chain produces the
strict left fold. -/
theorem parseLogical_chain (l0 op0 r0 : String)
    (chain : List (String × String × String × String))
    (hops : ∀ e ∈ chain, lowerString e.1 = "and" ∨ lowerString e.1 = "or") :
    parseLogical (cmpToks l0 op0 r0 ++ chainToks chain) =
      Except.ok (foldChain (cmpExpr l0 op0 r0) chain, []) := by
  unfold parseLogical
  rw [parseComparison_cmpToks]
  exact logicalLoop_chainToks chain _ _ (Nat.lt_succ_self _) hops

/-- **C6**. WHERE-clause chains of comparisons joined by AND/OR are
folded strictly left-to-right into nested `LogicalOp` nodes with AND
and OR at one shared precedence level: any rendered chain folds left
(first conjunct), and the token sequence of `a=1 OR b=2 AND c=3`
produces `LogicalOp(LogicalOp(a=1, OR, b=2), AND, c=3)` — both at the
expression level and inside a full SELECT statement. -/
theorem c6_logical_fold_left :
    (∀ (l0 op0 r0 : String) (chain : List (String × String × String × String)),
      (∀ e ∈ chain, lowerString e.1 = "and" ∨ lowerString e.1 = "or") →
      parseLogical (cmpToks l0 op0 r0 ++ chainToks chain) =
        Except.ok (foldChain (cmpExpr l0 op0 r0) chain, [])) ∧
    parseLogical
      [⟨TokenType.identifier, "a"⟩, ⟨TokenType.operator, "="⟩, ⟨TokenType.number, "1"⟩,
       ⟨TokenType.keyword, "OR"⟩,
       ⟨TokenType.identifier, "b"⟩, ⟨TokenType.operator, "="⟩, ⟨TokenType.number, "2"⟩,
       ⟨TokenType.keyword, "AND"⟩,
       ⟨TokenType.identifier, "c"⟩, ⟨TokenType.operator, "="⟩, ⟨TokenType.number, "3"⟩] =
      Except.ok
        (Expr.logicalOp
          (Expr.logicalOp
            (Expr.comparisonOp (Expr.columnRef "a") "=" (Expr.literalInt 1)) "OR"
            (Expr.comparisonOp (Expr.columnRef "b") "=" (Expr.literalInt 2))) "AND"
          (Expr.comparisonOp (Expr.columnRef "c") "=" (Expr.literalInt 3)), []) ∧
    ParseString "SELECT * FROM t WHERE a = 1 OR b = 2 AND c = 3" =
      Except.ok
        [AstNode.selectStmt [⟨true, ""⟩] ⟨"t"⟩
          (some
            (Expr.logicalOp
              (Expr.logicalOp
                (Expr.comparisonOp (Expr.columnRef "a") "=" (Expr.literalInt 1)) "OR"
                (Expr.comparisonOp (Expr.columnRef "b") "=" (Expr.literalInt 2))) "AND"
              (Expr.comparisonOp (Expr.columnRef "c") "=" (Expr.literalInt 3))))
          none] :=
  ⟨fun l0 op0 r0 chain h => parseLogical_chain l0 op0 r0 chain h, rfl, rfl⟩

/-- Witness for C6: the general fold applied to a concrete mixed
OR-then-AND chain. -/
theorem c6_logical_fold_left_witness :
    parseLogical (cmpToks "x" "=" "y" ++
        chainToks [("or", "u", "<", "v"), ("AND", "w", ">", "z")]) =
      Except.ok
        (foldChain (cmpExpr "x" "=" "y")
          [("or", "u", "<", "v"), ("AND", "w", ">", "z")], []) :=
  c6_logical_fold_left.1 "x" "=" "y" _ (by decide)

/-- **C8**. Tokenization never fails: an unterminated string absorbs
all remaining input, so `"SELECT 'abc"` yields `Keyword "SELECT"` then
a `String "abc"` token; in general the quoted-string scan consumes the
whole remainder whenever no closing quote is present. -/
theorem c8_tokenize_unterminated_string :
    Tokenize "SELECT 'abc" =
      [⟨TokenType.keyword, "SELECT"⟩, ⟨TokenType.string, "abc"⟩] ∧
    ∀ (quote : Char) (cs : List Char), (∀ c ∈ cs, c ≠ quote) →
      scanString quote cs = (cs, []) := by
  refine ⟨rfl, ?_⟩
  intro quote cs h
  induction cs with
  | nil => rfl
  | cons c rest ih =>
    have hc : c ≠ quote := h c (List.mem_cons_self c rest)
    rw [scanString, if_neg hc, ih (fun x hx => h x (List.mem_cons_of_mem c hx))]

/-- Witness for C8: a concrete quote-free remainder is absorbed whole. -/
theorem c8_tokenize_unterminated_string_witness :
    scanString '"' ['a', 'b', 'c'] = (['a', 'b', 'c'], []) :=
  c8_tokenize_unterminated_string.2 '"' ['a', 'b', 'c'] (by decide)

/-- Helper: the INSERT column-name-list loop consumes every token up to
the first `)` Separator, whatever those tokens are, and returns the
tokens after it. -/
theorem skipColumnList_to_rparen :
    ∀ (n : Nat) (ts : List Token), ts.length ≤ n →
      (∀ t ∈ ts, isSepTok t ")" = false) → ∀ (r : List Token),
      skipColumnList (ts ++ ⟨TokenType.separator, ")"⟩ :: r) = Except.ok r := by
  have hrp : isSepTok (⟨TokenType.separator, ")"⟩ : Token) ")" = true := rfl
  have hrpc : isSepTok (⟨TokenType.separator, ")"⟩ : Token) "," = false := rfl
  intro n
  induction n with
  | zero =>
    intro ts hlen _ r
    have hts : ts = [] := List.eq_nil_of_length_eq_zero (Nat.le_zero.mp hlen)
    subst hts
    rw [List.nil_append, skipColumnList.eq_def]
    simp [hrp]
  | succ n ih =>
    intro ts hlen hall r
    cases ts with
    | nil =>
      rw [List.nil_append, skipColumnList.eq_def]
      simp [hrp]
    | cons t ts2 =>
      have ht := hall t (List.mem_cons_self t ts2)
      cases ts2 with
      | nil =>
        rw [List.cons_append, List.nil_append, skipColumnList.eq_def]
        simp only [ht, Bool.false_eq_true, if_false]
        rw [skipColumnList.eq_def]
        simp [hrp, hrpc]
        rw [skipColumnList.eq_def]
        simp [hrp]
      | cons s ts3 =>
        by_cases hcomma : isSepTok s "," = true
        · have hrec := ih ts3
            (by simp only [List.length_cons] at hlen; omega)
            (fun x hx => hall x (List.mem_cons_of_mem t (List.mem_cons_of_mem s hx))) r
          simp [skipColumnList, ht, hcomma, hrec]
        · have hcf : isSepTok s "," = false := by
            cases hb : isSepTok s "," with
            | false => rfl
            | true => exact absurd hb hcomma
          have hrec := ih (s :: ts3)
            (by simp only [List.length_cons] at hlen ⊢; omega)
            (fun x hx => hall x (List.mem_cons_of_mem t hx)) r
          simp only [List.cons_append] at hrec
          simp [skipColumnList, ht, hcf, hrec]

/-- **C9**. The optional parenthesized list between the INSERT table
name and VALUES is consumed up to the first `)` regardless of token
kinds: the concrete statement with a Number and a String in that list
parses, and in general the skip loop discards any `)`-free token
sequence. -/
theorem c9_insert_column_list_skipped :
    ParseString "INSERT INTO t (1, 'x') VALUES (2)" =
      Except.ok [AstNode.insertStmt "t" [Expr.literalInt 2]] ∧
    ∀ (ts r : List Token), (∀ t ∈ ts, isSepTok t ")" = false) →
      skipColumnList (ts ++ ⟨TokenType.separator, ")"⟩ :: r) = Except.ok r := by
  refine ⟨rfl, ?_⟩
  intro ts r h
  exact skipColumnList_to_rparen ts.length ts (Nat.le_refl _) h r

/-- Witness for C9: a Number and an Operator token in list position are
discarded up to the `)`. -/
theorem c9_insert_column_list_skipped_witness :
    skipColumnList
      ([⟨TokenType.number, "1"⟩, ⟨TokenType.operator, "<"⟩] ++
        ⟨TokenType.separator, ")"⟩ :: [⟨TokenType.keyword, "VALUES"⟩]) =
      Except.ok [⟨TokenType.keyword, "VALUES"⟩] :=
  c9_insert_column_list_skipped.2 _ _ (by decide)

/-- Helper: the statement loop returns its accumulator unchanged on a
token list made only of `;` separators. -/
theorem parseStatementsLoop_semis :
    ∀ (fuel : Nat) (ts : List Token) (out : List AstNode), ts.length < fuel →
      (∀ t ∈ ts, isSepTok t ";" = true) →
      parseStatementsLoop fuel out ts = Except.ok out := by
  intro fuel
  induction fuel with
  | zero => intro ts out h _; exact absurd h (Nat.not_lt_zero _)
  | succ n ih =>
    intro ts out h hall
    cases ts with
    | nil => rfl
    | cons t rest =>
      have ht : isSepTok t ";" = true := hall t (List.mem_cons_self t rest)
      simp only [parseStatementsLoop, ht, if_true]
      exact ih rest out
        (by simp only [List.length_cons] at h; omega)
        (fun x hx => hall x (List.mem_cons_of_mem t hx))

/-- **C10**. A token sequence that is empty or consists solely of `;`
Separator tokens parses to an empty statement sequence with no error;
in particular the empty input and `";;;"` succeed, so the
unrecognized-statement error only arises when a non-semicolon token is
present. -/
theorem c10_semicolons_only_ok :
    (∀ ts : List Token, (∀ t ∈ ts, isSepTok t ";" = true) →
      parseStatements ts = Except.ok []) ∧
    ParseString "" = Except.ok [] ∧
    ParseString ";;;" = Except.ok [] := by
  refine ⟨?_, rfl, rfl⟩
  intro ts h
  exact parseStatementsLoop_semis (ts.length + 1) ts [] (Nat.lt_succ_self _) h

/-- Witness for C10: two stray semicolons parse to zero statements. -/
theorem c10_semicolons_only_ok_witness :
    parseStatements [⟨TokenType.separator, ";"⟩, ⟨TokenType.separator, ";"⟩] =
      Except.ok [] :=
  c10_semicolons_only_ok.1 _ (by decide)

end DbInternals
